import Mathlib

set_option maxRecDepth 8000

/-!
Verification of the Business-Intelligence-Pro research pipeline.

The Python sources under `src/backend/utils/` are shallowly embedded below:
pure string manipulation is translated into executable Lean functions on
`String` / `List Char`, outbound HTTP calls are abstracted as oracle
parameters (a function from the request key to the adapter's returned data),
and Python exceptions that are caught by the enclosing `try/except` blocks
are modelled with `Except`/`Option`.
-/

/-! ## Python string primitives

Character-level embeddings of the Python `str` methods used by the
repository: `strip`, `split`, `lower`, `title`, `replace`, substring
containment (`in`), and slicing.
-/

namespace Py

/-- The ASCII whitespace characters recognised by Python `str.strip()` /
`str.split()`: space, tab, newline, carriage return, vertical tab, form feed. -/
def isSpace (c : Char) : Bool :=
  c = ' ' || c = '\t' || c = '\n' || c = '\r' || c = Char.ofNat 11 || c = Char.ofNat 12

/-- Python `str.strip()` on a character list: drop whitespace from both ends. -/
def stripChars (l : List Char) : List Char :=
  ((l.dropWhile isSpace).reverse.dropWhile isSpace).reverse

/-- Python `str.strip()`. -/
def strip (s : String) : String := ⟨stripChars s.data⟩

/-- Accumulating worker for `splitWs`; `acc` holds the current word reversed. -/
def splitAux : List Char → List Char → List (List Char)
  | [], acc => if acc.isEmpty then [] else [acc.reverse]
  | c :: t, acc =>
    if isSpace c then
      if acc.isEmpty then splitAux t [] else acc.reverse :: splitAux t []
    else splitAux t (c :: acc)

/-- Python `str.split()` with no argument: maximal non-whitespace runs,
leading/trailing/repeated separators discarded. -/
def splitWs (l : List Char) : List (List Char) := splitAux l []

/-- `len(s.split())`. -/
def wordCount (s : String) : Nat := (splitWs s.data).length

/-- `' '.join(ws)` on character-list words. -/
def joinWords : List (List Char) → List Char
  | [] => []
  | [w] => w
  | w :: w2 :: rest => w ++ ' ' :: joinWords (w2 :: rest)

/-- Python `' '.join(s.split())`: collapse whitespace runs to single spaces. -/
def collapseChars (l : List Char) : List Char := joinWords (splitWs l)

/-- Python `' '.join(s.split())` on strings. -/
def collapse (s : String) : String := ⟨collapseChars s.data⟩

/-- Python `str.lower()` (ASCII). -/
def lowerChars (l : List Char) : List Char := l.map Char.toLower

/-- Python `str.lower()`. -/
def lower (s : String) : String := ⟨lowerChars s.data⟩

/-- Worker for `titleChars`; the flag records whether the previous character
was alphabetic (i.e. we are inside a word). -/
def titleAux : Bool → List Char → List Char
  | _, [] => []
  | prev, c :: t =>
    (if c.isAlpha then (if prev then c.toLower else c.toUpper) else c) :: titleAux c.isAlpha t

/-- Python `str.title()` (ASCII): uppercase each letter that follows a
non-letter, lowercase every other letter. -/
def titleChars (l : List Char) : List Char := titleAux false l

/-- Python `str.title()`. -/
def title (s : String) : String := ⟨titleAux false s.data⟩

/-- Is `needle` a contiguous substring of `hay` (Python `needle in hay`)? -/
def isSubstr (needle : List Char) : List Char → Bool
  | [] => needle.isEmpty
  | c :: t => needle.isPrefixOf (c :: t) || isSubstr needle t

/-- Python `a in b` on strings. -/
def strIn (a b : String) : Bool := isSubstr a.data b.data

/-- Fuel-indexed worker for `replaceChars`; the fuel dominates the length of
the list, so the `0, _ :: _` case is never reached from `replaceChars`. -/
def replaceAux (pat rep : List Char) : Nat → List Char → List Char
  | _, [] => []
  | 0, l => l
  | fuel + 1, c :: t =>
    if pat ≠ [] ∧ pat.isPrefixOf (c :: t) then
      rep ++ replaceAux pat rep fuel ((c :: t).drop pat.length)
    else
      c :: replaceAux pat rep fuel t

/-- Python `s.replace(pat, rep)` for a non-empty pattern: replace every
(leftmost, non-overlapping) occurrence. -/
def replaceChars (pat rep l : List Char) : List Char := replaceAux pat rep l.length l

/-- Python `s.split('/')[0]`. -/
def takeUntilSlash (l : List Char) : List Char := l.takeWhile (fun c => c ≠ '/')

end Py

/-! ## `urllib.parse.urlparse`

Embedding of the CPython URL splitter restricted to the components the
repository reads: `scheme`, `netloc` and `path`.  A scheme is recognised
before the first `:` when it is non-empty, starts with a letter and consists
of letters, digits, `+`, `-`, `.`; it is lowercased.  The netloc follows a
leading `//` and runs to the first `/`, `?` or `#`.  The `Invalid IPv6 URL`
`ValueError` (a `[` without `]` in the netloc, or conversely) is modelled as
`none`.
-/

namespace Urllib

structure UrlParts where
  scheme : String
  netloc : String
  path : String
deriving DecidableEq, Repr

/-- Characters allowed in a URL scheme after the first letter. -/
def isSchemeChar (c : Char) : Bool :=
  c.isAlpha || c.isDigit || c = '+' || c = '-' || c = '.'

/-- `urllib.parse.urlparse` on a character list (scheme/netloc/path only). -/
def urlparseChars (l : List Char) : Option UrlParts :=
  let pre := l.takeWhile (fun c => c ≠ ':')
  let schemeOk : Bool :=
    decide (pre.length < l.length) && !pre.isEmpty &&
      (pre.headD '0').isAlpha && pre.all isSchemeChar
  let scheme : List Char := if schemeOk then pre.map Char.toLower else []
  let rest := if schemeOk then l.drop (pre.length + 1) else l
  let hasNetloc : Bool := ['/', '/'].isPrefixOf rest
  let afterSlashes := rest.drop 2
  let netloc : List Char :=
    if hasNetloc then afterSlashes.takeWhile (fun c => c ≠ '/' && c ≠ '?' && c ≠ '#') else []
  let pathStart := if hasNetloc then afterSlashes.drop netloc.length else rest
  let path := pathStart.takeWhile (fun c => c ≠ '?' && c ≠ '#')
  if (netloc.contains '[' && !netloc.contains ']') ||
      (netloc.contains ']' && !netloc.contains '[') then
    none
  else
    some ⟨⟨scheme⟩, ⟨netloc⟩, ⟨path⟩⟩

/-- `urllib.parse.urlparse` on strings; `none` models the raised `ValueError`. -/
def urlparse (s : String) : Option UrlParts := urlparseChars s.data

end Urllib

example : Urllib.urlparse "https://www.example.com/path" =
    some ⟨"https", "www.example.com", "/path"⟩ := by decide

example : Urllib.urlparse "ftp://example.com" = some ⟨"ftp", "example.com", ""⟩ := by decide

example : Urllib.urlparse "www.example.com" = some ⟨"", "", "www.example.com"⟩ := by decide

example : Urllib.urlparse "http://[bad.com" = none := by decide

/-! ## `src/backend/utils/api_helpers.py` — URL utilities -/

namespace ApiHelpers

/-- `api_helpers.is_valid_url`: scheme in {http, https} and non-empty netloc;
an empty input or a parse error yields `false`. -/
def is_valid_url (url : String) : Bool :=
  if url = "" then false
  else
    match Urllib.urlparse url with
    | none => false
    | some p => (p.scheme = "http" || p.scheme = "https") && !(p.netloc = "")

/-- `api_helpers.extract_domain`: the netloc for valid URLs; a bare-domain
input (contains `.`, no `/`) is returned trimmed; otherwise empty. -/
def extract_domain (url : String) : String :=
  if url = "" then ""
  else if !is_valid_url url then
    if !Py.strIn "/" url && Py.strIn "." url then Py.strip url else ""
  else
    match Urllib.urlparse url with
    | none => ""
    | some p => p.netloc

end ApiHelpers

/-! ## `src/backend/utils/validation.py` -/

namespace Validation

/-- `validation.is_valid_url`: truthiness of scheme and netloc — any scheme
is accepted; a parse error yields `false` via the bare `except`. -/
def is_valid_url (url : String) : Bool :=
  match Urllib.urlparse url with
  | none => false
  | some p => !(p.scheme = "") && !(p.netloc = "")

end Validation

/-! ## `src/backend/utils/parser_utils.py` -/

namespace ParserUtils

/-- `parser_utils.extract_domain`: netloc-or-path, with every `www.`
removed, trimmed and lowercased.  The function has no `try/except`, so the
parser's `ValueError` propagates: that is modelled as `none`. -/
def extract_domain (url : String) : Option String :=
  if url = "" then some ""
  else
    (Urllib.urlparse url).map fun p =>
      let domain := if p.netloc ≠ "" then p.netloc else p.path
      Py.lower (Py.strip ⟨Py.replaceChars "www.".data [] domain.data⟩)

/-- The strings the alternation `(inc|ltd|corp|co)\.?` can consume,
lowercased. -/
def legalSuffixForms : List (List Char) :=
  ["inc", "inc.", "ltd", "ltd.", "corp", "corp.", "co", "co."].map String.data

/-- Does the regex `\s+(inc|ltd|corp|co)\.?$` match the whole of `l`?
Since each alternative starts with a letter, the greedy `\s+` necessarily
consumes exactly the maximal leading whitespace run. -/
def legalSuffixHere (l : List Char) : Bool :=
  !(l.takeWhile Py.isSpace).isEmpty &&
    legalSuffixForms.contains (Py.lowerChars (l.dropWhile Py.isSpace))

/-- `re.sub(r"\s+(inc\.?|ltd\.?|corp\.?|co\.?)$", "", l, flags=re.I)`:
delete from the leftmost position where the anchored pattern matches. -/
def subLegalSuffix : List Char → List Char
  | [] => []
  | c :: t => if legalSuffixHere (c :: t) then [] else c :: subLegalSuffix t

/-- `parser_utils.normalize_company_name`: trim, strip one trailing legal
suffix, title-case. -/
def normalize_company_name (name : String) : String :=
  if name = "" then ""
  else Py.title ⟨subLegalSuffix (Py.stripChars name.data)⟩

end ParserUtils

example : ParserUtils.normalize_company_name "  Acme Corp. " = "Acme" := by decide

example : ParserUtils.normalize_company_name "OpenAI" = "Openai" := by decide

example : ParserUtils.normalize_company_name "acme ltd" = "Acme" := by decide

example : ApiHelpers.extract_domain "https://www.example.com/path" = "www.example.com" := by
  decide

example : ApiHelpers.extract_domain " acme.com " = "acme.com" := by decide

example : ParserUtils.extract_domain "https://www.example.com/path" = some "example.com" := by
  decide

example : Validation.is_valid_url "ftp://example.com" = true := by decide

example : ApiHelpers.is_valid_url "ftp://example.com" = false := by decide

/-! ## Claims C9 and C7 — URL validation and domain extraction -/

/-- The property claim C9 asserts of both validators: the input parses to a
URL whose scheme is `http` or `https` and whose host (netloc) is non-empty. -/
def urlSchemeHostOk (url : String) : Bool :=
  match Urllib.urlparse url with
  | none => false
  | some p => (p.scheme = "http" || p.scheme = "https") && !(p.netloc = "")

/-- Claim C9 counterexample: `validation.is_valid_url` accepts
`"ftp://example.com"`, whose scheme is neither `http` nor `https`, so the
claimed biconditional fails for that function. -/
theorem C9_counterexample :
    ¬ (Validation.is_valid_url "ftp://example.com" =
        urlSchemeHostOk "ftp://example.com") := by
  decide

/-- Claim C9, amended: `api_helpers.is_valid_url` returns true iff the string
parses with scheme http/https and a non-empty host, while
`validation.is_valid_url` returns true iff the parse yields a non-empty
scheme of any kind and a non-empty host. -/
theorem C9_is_valid_url (url : String) :
    ApiHelpers.is_valid_url url = urlSchemeHostOk url ∧
    (Validation.is_valid_url url = true ↔
      ∃ p, Urllib.urlparse url = some p ∧ p.scheme ≠ "" ∧ p.netloc ≠ "") := by
  constructor
  · by_cases h : url = ""
    · subst h; decide
    · simp only [ApiHelpers.is_valid_url, urlSchemeHostOk, if_neg h]
  · unfold Validation.is_valid_url
    cases hp : Urllib.urlparse url with
    | none => simp
    | some p =>
      simp only [Option.some.injEq, Bool.and_eq_true, Bool.not_eq_true',
        decide_eq_true_eq]
      constructor
      · rintro ⟨h1, h2⟩
        exact ⟨p, rfl, by simpa using h1, by simpa using h2⟩
      · rintro ⟨q, hq, h1, h2⟩
        cases hq
        exact ⟨by simpa using h1, by simpa using h2⟩

/-- Claim C7: `api_helpers.extract_domain` returns the full netloc for valid
URLs (case preserved, `www.` kept), the trimmed input for bare-domain
strings (a `.` and no `/`), and the empty string otherwise; it diverges from
`parser_utils.extract_domain`, which lowercases and strips `www.`. -/
theorem C7_extract_domain (url : String) :
    (ApiHelpers.is_valid_url url = true →
      ApiHelpers.extract_domain url =
        ((Urllib.urlparse url).map Urllib.UrlParts.netloc).getD "") ∧
    (ApiHelpers.is_valid_url url = false → Py.strIn "." url = true →
      Py.strIn "/" url = false → ApiHelpers.extract_domain url = Py.strip url) ∧
    (ApiHelpers.is_valid_url url = false →
      (Py.strIn "." url = false ∨ Py.strIn "/" url = true) →
      ApiHelpers.extract_domain url = "") ∧
    ApiHelpers.extract_domain "https://www.example.com/path" = "www.example.com" ∧
    ParserUtils.extract_domain "https://www.example.com/path" = some "example.com" := by
  refine ⟨?_, ?_, ?_, by decide, by decide⟩
  · intro hv
    have hne : url ≠ "" := by
      intro h; subst h; exact absurd hv (by decide)
    unfold ApiHelpers.extract_domain
    rw [if_neg hne, hv]
    simp only [Bool.not_true, Bool.false_eq_true, if_false]
    cases hp : Urllib.urlparse url with
    | none =>
      exfalso
      unfold ApiHelpers.is_valid_url at hv
      rw [if_neg hne, hp] at hv
      exact Bool.false_ne_true hv
    | some p => simp
  · intro hv hdot hslash
    by_cases hne : url = ""
    · subst hne; exact absurd hdot (by decide)
    · unfold ApiHelpers.extract_domain
      rw [if_neg hne, hv]
      simp [hdot, hslash]
  · intro hv hcase
    by_cases hne : url = ""
    · subst hne; rfl
    · unfold ApiHelpers.extract_domain
      rw [if_neg hne, hv]
      rcases hcase with h | h <;> simp [h]

/-! ## Claim C8 — `normalize_company_name` -/

/-- Python whitespace characters are fixed by `Char.toLower`. -/
theorem toLower_of_isSpace {c : Char} (h : Py.isSpace c = true) : c.toLower = c := by
  simp only [Py.isSpace, Bool.or_eq_true, decide_eq_true_eq] at h
  rcases h with ((((h | h) | h) | h) | h) | h <;> subst h <;> decide

/-- No character of any legal-suffix form is whitespace. -/
theorem legalSuffixForms_no_space :
    ∀ f ∈ ParserUtils.legalSuffixForms, ∀ c ∈ f, Py.isSpace c = false := by
  decide

/-- A list containing a whitespace character is not (after lowercasing) a
legal-suffix form. -/
theorem lower_not_form_of_mem_space {l : List Char} {c : Char} (hc : c ∈ l)
    (hs : Py.isSpace c = true) :
    Py.lowerChars l ∉ ParserUtils.legalSuffixForms := by
  intro hmem
  have hcl : c.toLower ∈ Py.lowerChars l := List.mem_map_of_mem _ hc
  have := legalSuffixForms_no_space _ hmem _ hcl
  rw [toLower_of_isSpace hs] at this
  rw [hs] at this
  simp at this

/-- `takeWhile`/`dropWhile` across a whitespace run followed by a
non-whitespace-headed tail. -/
theorem takeWhile_dropWhile_ws (ws tok : List Char)
    (hws : ∀ c ∈ ws, Py.isSpace c = true)
    (htok : ∀ c, tok.head? = some c → Py.isSpace c = false) :
    (ws ++ tok).takeWhile Py.isSpace = ws ∧ (ws ++ tok).dropWhile Py.isSpace = tok := by
  induction ws with
  | nil =>
    cases tok with
    | nil => exact ⟨rfl, rfl⟩
    | cons c t =>
      have hc := htok c rfl
      constructor
      · simp [List.takeWhile_cons, hc]
      · simp [List.dropWhile_cons, hc]
  | cons a ws' ih =>
    have ha : Py.isSpace a = true := hws a (List.mem_cons_self a ws')
    have ih' := ih (fun c hc => hws c (List.mem_cons_of_mem _ hc))
    constructor
    · simp [List.takeWhile_cons, ha, ih'.1]
    · simp [List.dropWhile_cons, ha, ih'.2]

/-- The head of a legal-suffix form's preimage is not whitespace. -/
theorem tok_head_not_space {tok : List Char}
    (htok : Py.lowerChars tok ∈ ParserUtils.legalSuffixForms) :
    ∀ c, tok.head? = some c → Py.isSpace c = false := by
  intro c hc
  by_contra h
  have hs : Py.isSpace c = true := by
    cases hsc : Py.isSpace c with
    | true => rfl
    | false => exact absurd hsc h
  have hcm : c ∈ tok := by
    cases tok with
    | nil => simp at hc
    | cons x t =>
      simp only [List.head?_cons, Option.some.injEq] at hc
      subst hc
      exact List.mem_cons_self _ _
  exact lower_not_form_of_mem_space hcm hs htok

/-- The anchored suffix regex matches a whitespace run followed by a form. -/
theorem legalSuffixHere_ws_tok (ws tok : List Char) (hwsne : ws ≠ [])
    (hws : ∀ c ∈ ws, Py.isSpace c = true)
    (htok : Py.lowerChars tok ∈ ParserUtils.legalSuffixForms) :
    ParserUtils.legalSuffixHere (ws ++ tok) = true := by
  have h := takeWhile_dropWhile_ws ws tok hws (tok_head_not_space htok)
  unfold ParserUtils.legalSuffixHere
  rw [h.1, h.2]
  have h1 : ws.isEmpty = false := by
    cases ws with
    | nil => exact absurd rfl hwsne
    | cons _ _ => rfl
  have h2 : ParserUtils.legalSuffixForms.contains (Py.lowerChars tok) = true :=
    List.elem_iff.mpr htok
  rw [h1, h2]
  rfl

/-- The anchored suffix regex does not match while a non-whitespace character
(the last character of `core`) still lies before the whitespace run. -/
theorem legalSuffixHere_core_false (core ws tok : List Char)
    (hlast : ∃ cl, core.getLast? = some cl ∧ Py.isSpace cl = false)
    (hwsne : ws ≠ []) (hws : ∀ c ∈ ws, Py.isSpace c = true) :
    ParserUtils.legalSuffixHere (core ++ ws ++ tok) = false := by
  obtain ⟨cl, hcl, hcls⟩ := hlast
  have hdne : core.dropWhile Py.isSpace ≠ [] := by
    intro hnil
    have hall := List.dropWhile_eq_nil_iff.mp hnil
    have hclm : cl ∈ core := by
      obtain ⟨hne, heq⟩ := List.mem_getLast?_eq_getLast (l := core) (x := cl) hcl
      subst heq
      exact List.getLast_mem hne
    have hsp := hall cl hclm
    rw [hsp] at hcls
    simp at hcls
  have hdrop : (core ++ (ws ++ tok)).dropWhile Py.isSpace =
      core.dropWhile Py.isSpace ++ (ws ++ tok) := by
    rw [List.dropWhile_append]
    have : (core.dropWhile Py.isSpace).isEmpty = false := by
      cases h : core.dropWhile Py.isSpace with
      | nil => exact absurd h hdne
      | cons _ _ => rfl
    rw [this]
    simp
  unfold ParserUtils.legalSuffixHere
  rw [List.append_assoc, hdrop]
  obtain ⟨w0, ws', hws0⟩ : ∃ w0 ws', ws = w0 :: ws' := by
    cases ws with
    | nil => exact absurd rfl hwsne
    | cons a b => exact ⟨a, b, rfl⟩
  have hw0 : Py.isSpace w0 = true := hws w0 (hws0 ▸ List.mem_cons_self w0 ws')
  have hw0m : w0 ∈ core.dropWhile Py.isSpace ++ (ws ++ tok) := by
    apply List.mem_append_right
    apply List.mem_append_left
    rw [hws0]
    exact List.mem_cons_self w0 ws'
  have hnotform := lower_not_form_of_mem_space hw0m hw0
  have : ParserUtils.legalSuffixForms.contains
      (Py.lowerChars (core.dropWhile Py.isSpace ++ (ws ++ tok))) = false := by
    cases h : ParserUtils.legalSuffixForms.contains
        (Py.lowerChars (core.dropWhile Py.isSpace ++ (ws ++ tok))) with
    | false => rfl
    | true => exact absurd (List.elem_iff.mp h) hnotform
  rw [this]
  simp

/-- The regex deletion removes exactly a maximal trailing whitespace run plus
a legal-suffix form, leaving the core untouched. -/
theorem subLegalSuffix_strips (core ws tok : List Char)
    (hlast : ∃ cl, core.getLast? = some cl ∧ Py.isSpace cl = false)
    (hwsne : ws ≠ []) (hws : ∀ c ∈ ws, Py.isSpace c = true)
    (htok : Py.lowerChars tok ∈ ParserUtils.legalSuffixForms) :
    ParserUtils.subLegalSuffix (core ++ ws ++ tok) = core := by
  induction core with
  | nil =>
    obtain ⟨cl, hcl, _⟩ := hlast
    simp at hcl
  | cons c core' ih =>
    have hfalse : ParserUtils.legalSuffixHere ((c :: core') ++ ws ++ tok) = false :=
      legalSuffixHere_core_false (c :: core') ws tok hlast hwsne hws
    cases hcore' : core' with
    | nil =>
      subst hcore'
      have hrest : ParserUtils.subLegalSuffix (ws ++ tok) = [] := by
        obtain ⟨w0, ws', hws0⟩ : ∃ w0 ws', ws = w0 :: ws' := by
          cases ws with
          | nil => exact absurd rfl hwsne
          | cons a b => exact ⟨a, b, rfl⟩
        subst hws0
        have htrue := legalSuffixHere_ws_tok (w0 :: ws') tok (by simp) hws htok
        simp only [List.cons_append] at htrue
        show ParserUtils.subLegalSuffix (w0 :: (ws' ++ tok)) = []
        unfold ParserUtils.subLegalSuffix
        rw [htrue]
        rfl
      show ParserUtils.subLegalSuffix (c :: (ws ++ tok)) = [c]
      unfold ParserUtils.subLegalSuffix
      simp only [List.cons_append, List.append_assoc, List.nil_append] at hfalse
      rw [hfalse]
      simp [hrest]
    | cons c2 rest =>
      subst hcore'
      have hlast' : ∃ cl, (c2 :: rest).getLast? = some cl ∧ Py.isSpace cl = false := by
        obtain ⟨cl, hcl, hcls⟩ := hlast
        exact ⟨cl, by rw [← List.getLast?_cons_cons]; exact hcl, hcls⟩
      have ih' := ih hlast'
      simp only [List.cons_append, List.append_assoc] at ih'
      simp only [List.cons_append, List.append_assoc] at hfalse
      show ParserUtils.subLegalSuffix (c :: (c2 :: rest ++ ws ++ tok)) = c :: (c2 :: rest)
      unfold ParserUtils.subLegalSuffix
      simp only [List.cons_append, List.append_assoc]
      rw [hfalse]
      simp [ih']

/-- If the anchored regex matches at no position, the deletion is the
identity. -/
theorem subLegalSuffix_id (l : List Char)
    (h : ∀ n < l.length, ParserUtils.legalSuffixHere (l.drop n) = false) :
    ParserUtils.subLegalSuffix l = l := by
  induction l with
  | nil => rfl
  | cons c t ih =>
    have h0 := h 0 (by simp)
    unfold ParserUtils.subLegalSuffix
    rw [show (c :: t).drop 0 = c :: t from rfl] at h0
    rw [h0]
    simp only [Bool.false_eq_true, if_false]
    have ht : ∀ n < t.length, ParserUtils.legalSuffixHere (t.drop n) = false := by
      intro n hn
      have := h (n + 1) (by simpa using Nat.succ_lt_succ hn)
      rwa [List.drop_succ_cons] at this
    rw [ih ht]

/-- `normalize_company_name` decomposes as strip, then regex deletion, then
title-casing, for every input (including the empty string). -/
theorem normalize_company_name_eq (s : String) :
    ParserUtils.normalize_company_name s =
      Py.title ⟨ParserUtils.subLegalSuffix (Py.stripChars s.data)⟩ := by
  by_cases h : s = ""
  · subst h; rfl
  · unfold ParserUtils.normalize_company_name
    rw [if_neg h]

/-- Claim C8: `normalize_company_name` trims surrounding whitespace, strips
one trailing legal-entity suffix token (inc, ltd, corp, co — case-insensitive,
optional trailing period, preceded by whitespace), and title-cases the
remainder; in particular the two documented examples hold. -/
theorem C8_normalize_company_name :
    ParserUtils.normalize_company_name "  Acme Corp. " = "Acme" ∧
    ParserUtils.normalize_company_name "OpenAI" = "Openai" ∧
    (∀ s : String, ParserUtils.normalize_company_name s =
      Py.title ⟨ParserUtils.subLegalSuffix (Py.stripChars s.data)⟩) ∧
    (∀ l : List Char, (∀ n < l.length, ParserUtils.legalSuffixHere (l.drop n) = false) →
      ParserUtils.subLegalSuffix l = l) ∧
    (∀ core ws tok : List Char,
      (∃ cl, core.getLast? = some cl ∧ Py.isSpace cl = false) →
      ws ≠ [] → (∀ c ∈ ws, Py.isSpace c = true) →
      Py.lowerChars tok ∈ ParserUtils.legalSuffixForms →
      ParserUtils.subLegalSuffix (core ++ ws ++ tok) = core) :=
  ⟨by decide, by decide, normalize_company_name_eq, subLegalSuffix_id, subLegalSuffix_strips⟩

/-- Witness for C8 at concrete inputs: the no-match case on "OpenAI" and the
suffix-stripping case on "Acme" ++ " " ++ "Corp.". -/
theorem C8_normalize_company_name_witness :
    ParserUtils.normalize_company_name "hello world" =
      Py.title ⟨ParserUtils.subLegalSuffix (Py.stripChars "hello world".data)⟩ ∧
    ParserUtils.subLegalSuffix "OpenAI".data = "OpenAI".data ∧
    ParserUtils.subLegalSuffix ("Acme".data ++ [' '] ++ "Corp.".data) = "Acme".data :=
  ⟨C8_normalize_company_name.2.2.1 "hello world",
   C8_normalize_company_name.2.2.2.1 "OpenAI".data (by decide),
   C8_normalize_company_name.2.2.2.2 "Acme".data [' '] "Corp.".data
     ⟨'e', by decide, by decide⟩ (by decide) (by decide) (by decide)⟩

/-! ## `fetch_duckduckgo_summary` — claim C2

The HTTP call is abstracted: the function below receives the decoded JSON
response (`none` when `_safe_get` returned `None`).  Related topics are the
resolved `Text`-or-`Result` strings of the dict entries (non-dict entries and
missing texts appear as `""`, which the loop skips either way).

The local variable `company_indicators` is assigned only inside the
`if summary:` block; reading it in the related-topics loop when the primary
summary was empty raises `UnboundLocalError`, which the enclosing
`try/except` turns into a returned `""`.  That unbound read is modelled with
`Except.error`.
-/

namespace ApiHelpers

structure DDGResponse where
  abstractText : String
  heading : String
  relatedTopics : List String
deriving DecidableEq, Repr

/-- The business-indicator keyword list (note `"CEO"` is compared against a
lowercased text, so it can never match). -/
def companyIndicators : List String :=
  ["company", "startup", "tech", "business", "inc", "corp", "ltd", "founder", "CEO", "venture"]

/-- `any(indicator in t.lower() for indicator in company_indicators)`. -/
def containsIndicator (t : String) : Bool :=
  companyIndicators.any fun ind => Py.isSubstr ind.data (Py.lowerChars t.data)

/-- The related-topics loop; `indicatorsBound` records whether
`company_indicators` was ever assigned.  Reading it unbound raises, which is
the `Except.error` case. -/
def scanRelated (indicatorsBound : Bool) : List String → Except Unit String
  | [] => Except.ok ""
  | t :: rest =>
    if t ≠ "" then
      if indicatorsBound then
        if containsIndicator t then Except.ok t else scanRelated indicatorsBound rest
      else Except.error ()
    else scanRelated indicatorsBound rest

/-- `fetch_duckduckgo_summary` given the decoded response. -/
def fetch_duckduckgo_summary (resp : Option DDGResponse) : String :=
  match resp with
  | none => ""
  | some d =>
    let summary0 := if d.abstractText ≠ "" then d.abstractText else d.heading
    let indicatorsBound := summary0 ≠ ""
    let summary1 :=
      if summary0 ≠ "" then
        if containsIndicator summary0 = false ∧ Py.wordCount summary0 > 20 then ""
        else summary0
      else summary0
    if summary1 ≠ "" then summary1
    else
      match scanRelated indicatorsBound d.relatedTopics with
      | Except.ok s => s
      | Except.error _ => ""

end ApiHelpers

/-- When `company_indicators` was never bound, the scan either finishes with
no text found or raises on the first non-empty topic. -/
theorem scanRelated_unbound (topics : List String) :
    ApiHelpers.scanRelated false topics = Except.ok "" ∨
    ApiHelpers.scanRelated false topics = Except.error () := by
  induction topics with
  | nil => exact Or.inl rfl
  | cons t rest ih =>
    unfold ApiHelpers.scanRelated
    by_cases h : t = ""
    · simp only [h, ne_eq, not_true_eq_false, if_false]
      simpa using ih
    · simp [h]

/-- Claim C2 (code bug): whenever both primary fields are empty,
`fetch_duckduckgo_summary` returns `""` — the related-topics fallback can
never fire, because the business-indicator list is referenced before
assignment and the resulting `UnboundLocalError` is swallowed. -/
theorem C2_related_topics_unreachable (d : ApiHelpers.DDGResponse)
    (ha : d.abstractText = "") (hh : d.heading = "") :
    ApiHelpers.fetch_duckduckgo_summary (some d) = "" := by
  unfold ApiHelpers.fetch_duckduckgo_summary
  simp only [ha, hh, ne_eq, not_true_eq_false, if_false, ite_self]
  rcases scanRelated_unbound d.relatedTopics with h | h <;> simp [h]

/-- Witness for C2: a response whose only data is a related topic that does
contain a business indicator still yields `""`. -/
theorem C2_related_topics_unreachable_witness :
    ApiHelpers.fetch_duckduckgo_summary
      (some ⟨"", "", ["Acme is a tech company"]⟩) = "" ∧
    ApiHelpers.containsIndicator "Acme is a tech company" = true :=
  ⟨C2_related_topics_unreachable ⟨"", "", ["Acme is a tech company"]⟩ rfl rfl, by decide⟩

/-! ## `generate_ai_insight` — claim C5

The prompt construction only affects what is sent to the language model;
the claims concern the response post-processing (lines 636-651), so the
embedding takes the decoded chat-completion response: `none` models
`_call_groq_chat` returning `None`, and a response with `content = none`
models a JSON body without `choices[0].message.content` (the `KeyError`
path of the final `try/except`).
-/

namespace ApiHelpers

structure GroqResponse where
  content : Option String
deriving DecidableEq, Repr

/-- The fixed message returned when the model call fails outright. -/
def callFailureMessage : String :=
  "Analysis generation failed. Please check the company website and try again."

/-- The fixed truncation advisory. -/
def truncationAdvisory : String :=
  "Analysis was truncated. Please try again with the \x27Strategic Research\x27 option disabled, or provide a company website for more focused analysis."

/-- The fixed message returned when the response cannot be parsed. -/
def parseFailureMessage : String :=
  "Analysis generation failed due to technical error."

/-- `content.endswith(('.', '!', '?'))`. -/
def endsTerminal (s : String) : Bool :=
  match s.data.getLast? with
  | some c => c = '.' || c = '!' || c = '?'
  | none => false

/-- `generate_ai_insight` response post-processing. -/
def generate_ai_insight (resp : Option GroqResponse) : String :=
  match resp with
  | none => callFailureMessage
  | some r =>
    match r.content with
    | none => parseFailureMessage
    | some raw =>
      let content := Py.strip raw
      if content ≠ "" ∧ endsTerminal content = false ∧ Py.wordCount content > 300 then
        truncationAdvisory
      else
        content

end ApiHelpers

/-- Claim C5: a stripped model response of more than 300 words not ending in
terminal punctuation is replaced by the fixed truncation advisory; a failed
call and an unparseable response each yield their fixed non-empty failure
message, and the function is total (no exception escapes). -/
theorem C5_generate_ai_insight (raw : String)
    (hw : Py.wordCount (Py.strip raw) > 300)
    (hp : ApiHelpers.endsTerminal (Py.strip raw) = false) :
    ApiHelpers.generate_ai_insight (some ⟨some raw⟩) = ApiHelpers.truncationAdvisory ∧
    ApiHelpers.generate_ai_insight none = ApiHelpers.callFailureMessage ∧
    ApiHelpers.callFailureMessage ≠ "" ∧
    ApiHelpers.generate_ai_insight (some ⟨none⟩) = ApiHelpers.parseFailureMessage ∧
    ApiHelpers.parseFailureMessage ≠ "" := by
  refine ⟨?_, rfl, by decide, rfl, by decide⟩
  have hne : Py.strip raw ≠ "" := by
    intro h
    rw [h] at hw
    exact absurd hw (by decide)
  show (let content := Py.strip raw;
    if content ≠ "" ∧ ApiHelpers.endsTerminal content = false ∧ Py.wordCount content > 300 then
      ApiHelpers.truncationAdvisory
    else content) = ApiHelpers.truncationAdvisory
  simp only []
  rw [if_pos ⟨hne, hp, hw⟩]

/-- A concrete 301-word response for the C5 witness. -/
def manyWords : String := ⟨(List.replicate 300 ['w', ' ']).flatten ++ ['w']⟩

/-- Witness for C5 at the concrete 301-word response. -/
theorem C5_generate_ai_insight_witness :
    Py.wordCount (Py.strip manyWords) > 300 ∧
    ApiHelpers.endsTerminal (Py.strip manyWords) = false ∧
    ApiHelpers.generate_ai_insight (some ⟨some manyWords⟩) =
      ApiHelpers.truncationAdvisory :=
  ⟨by decide, by decide, (C5_generate_ai_insight manyWords (by decide) (by decide)).1⟩

/-! ## `fetch_news_articles_enhanced` — claim C4

`fetch_news_articles` is an HTTP adapter; it is abstracted as an oracle from
the query string to the article list it returns (its own `limit`/title
filtering happens inside the oracle).
-/

namespace ApiHelpers

structure Article where
  title : String
  link : String
deriving DecidableEq, Repr

/-- The dedup key: `article.get('title', '').lower().strip()`. -/
def newsKey (a : Article) : String := ⟨Py.stripChars (Py.lowerChars a.title.data)⟩

/-- `domain.replace('www.', '').replace('https://', '').replace('http://', '').split('/')[0]`. -/
def cleanDomain (domain : String) : String :=
  ⟨Py.takeUntilSlash (Py.replaceChars "http://".data []
    (Py.replaceChars "https://".data []
      (Py.replaceChars "www.".data [] domain.data)))⟩

/-- The `seen_titles` dedup loop: keep an article when its key is non-empty
and unseen. -/
def dedupNewsAux (seen : List String) : List Article → List Article
  | [] => []
  | a :: t =>
    if newsKey a ≠ "" ∧ newsKey a ∉ seen then a :: dedupNewsAux (newsKey a :: seen) t
    else dedupNewsAux seen t

/-- `fetch_news_articles_enhanced` with the underlying `fetch_news_articles`
calls abstracted as `fetchNews`: the name-keyed query runs when the name is
truthy, the domain-keyed query when the domain is truthy and not a substring
of the name; the concatenation is deduplicated and truncated to `limit`. -/
def fetch_news_articles_enhanced (fetchNews : String → List Article)
    (company_name domain : String) (limit : Nat) : List Article :=
  (dedupNewsAux []
    ((if company_name ≠ "" then fetchNews company_name else []) ++
      (if domain ≠ "" ∧ Py.strIn domain company_name = false then
        fetchNews (cleanDomain domain)
      else []))).take limit

end ApiHelpers

/-- The dedup loop returns a sublist of its input. -/
theorem dedupNewsAux_sublist (seen : List String) (l : List ApiHelpers.Article) :
    List.Sublist (ApiHelpers.dedupNewsAux seen l) l := by
  induction l generalizing seen with
  | nil => exact List.Sublist.refl []
  | cons a t ih =>
    unfold ApiHelpers.dedupNewsAux
    by_cases h : ApiHelpers.newsKey a ≠ "" ∧ ApiHelpers.newsKey a ∉ seen
    · rw [if_pos h]
      exact (ih _).cons₂ a
    · rw [if_neg h]
      exact (ih seen).cons a

/-- Every kept article has a non-empty key that was not previously seen. -/
theorem dedupNewsAux_mem_key (seen : List String) (l : List ApiHelpers.Article) :
    ∀ a ∈ ApiHelpers.dedupNewsAux seen l,
      ApiHelpers.newsKey a ≠ "" ∧ ApiHelpers.newsKey a ∉ seen := by
  induction l generalizing seen with
  | nil => intro a ha; simp [ApiHelpers.dedupNewsAux] at ha
  | cons b t ih =>
    intro a ha
    unfold ApiHelpers.dedupNewsAux at ha
    by_cases h : ApiHelpers.newsKey b ≠ "" ∧ ApiHelpers.newsKey b ∉ seen
    · rw [if_pos h] at ha
      rcases List.mem_cons.mp ha with rfl | ha'
      · exact h
      · have := ih _ a ha'
        exact ⟨this.1, fun hm => this.2 (List.mem_cons_of_mem _ hm)⟩
    · rw [if_neg h] at ha
      exact ih seen a ha

/-- The kept articles have pairwise-distinct keys. -/
theorem dedupNewsAux_nodup (seen : List String) (l : List ApiHelpers.Article) :
    ((ApiHelpers.dedupNewsAux seen l).map ApiHelpers.newsKey).Nodup := by
  induction l generalizing seen with
  | nil => simp [ApiHelpers.dedupNewsAux]
  | cons b t ih =>
    unfold ApiHelpers.dedupNewsAux
    by_cases h : ApiHelpers.newsKey b ≠ "" ∧ ApiHelpers.newsKey b ∉ seen
    · rw [if_pos h]
      rw [List.map_cons, List.nodup_cons]
      constructor
      · intro hmem
        obtain ⟨a, ha, hk⟩ := List.mem_map.mp hmem
        have := dedupNewsAux_mem_key _ _ a ha
        exact this.2 (hk ▸ List.mem_cons_self _ _)
      · exact ih _
    · rw [if_neg h]
      exact ih seen

/-- Every non-empty key of the input is represented in the output (or was
already seen). -/
theorem dedupNewsAux_covers (seen : List String) (l : List ApiHelpers.Article) :
    ∀ a ∈ l, ApiHelpers.newsKey a ≠ "" →
      ApiHelpers.newsKey a ∈ seen ∨
      ∃ b ∈ ApiHelpers.dedupNewsAux seen l, ApiHelpers.newsKey b = ApiHelpers.newsKey a := by
  induction l generalizing seen with
  | nil => intro a ha; simp at ha
  | cons b t ih =>
    intro a ha hk
    unfold ApiHelpers.dedupNewsAux
    by_cases h : ApiHelpers.newsKey b ≠ "" ∧ ApiHelpers.newsKey b ∉ seen
    · rw [if_pos h]
      rcases List.mem_cons.mp ha with rfl | ha'
      · exact Or.inr ⟨a, List.mem_cons_self _ _, rfl⟩
      · rcases ih (ApiHelpers.newsKey b :: seen) a ha' hk with hs | ⟨c, hc, hck⟩
        · rcases List.mem_cons.mp hs with heq | hs'
          · exact Or.inr ⟨b, List.mem_cons_self _ _, heq.symm⟩
          · exact Or.inl hs'
        · exact Or.inr ⟨c, List.mem_cons_of_mem _ hc, hck⟩
    · rw [if_neg h]
      rcases List.mem_cons.mp ha with rfl | ha'
      · rcases not_and_or.mp h with h1 | h2
        · exact absurd hk (by simpa using h1)
        · exact Or.inl (by simpa using h2)
      · exact ih seen a ha' hk

/-- Claim C4: the domain-keyed news query contributes exactly when the domain
is non-empty and not a substring of the name; the merged output has
pairwise-distinct lowercased-trimmed titles, is a sublist of the
concatenated adapter outputs (first-seen order), has length at most `limit`,
and (before truncation) represents every non-empty title key of the input. -/
theorem C4_fetch_news_articles_enhanced (fetchNews : String → List ApiHelpers.Article)
    (company_name domain : String) (limit : Nat) :
    (domain ≠ "" ∧ Py.strIn domain company_name = false →
      ApiHelpers.fetch_news_articles_enhanced fetchNews company_name domain limit =
        (ApiHelpers.dedupNewsAux []
          ((if company_name ≠ "" then fetchNews company_name else []) ++
            fetchNews (ApiHelpers.cleanDomain domain))).take limit) ∧
    (¬(domain ≠ "" ∧ Py.strIn domain company_name = false) →
      ApiHelpers.fetch_news_articles_enhanced fetchNews company_name domain limit =
        (ApiHelpers.dedupNewsAux []
          (if company_name ≠ "" then fetchNews company_name else [])).take limit) ∧
    ((ApiHelpers.fetch_news_articles_enhanced fetchNews company_name domain limit).map
        ApiHelpers.newsKey).Nodup ∧
    List.Sublist
      (ApiHelpers.fetch_news_articles_enhanced fetchNews company_name domain limit)
      ((if company_name ≠ "" then fetchNews company_name else []) ++
        (if domain ≠ "" ∧ Py.strIn domain company_name = false then
          fetchNews (ApiHelpers.cleanDomain domain)
        else [])) ∧
    (ApiHelpers.fetch_news_articles_enhanced fetchNews company_name domain limit).length ≤
      limit ∧
    (∀ a ∈ (if company_name ≠ "" then fetchNews company_name else []) ++
        (if domain ≠ "" ∧ Py.strIn domain company_name = false then
          fetchNews (ApiHelpers.cleanDomain domain)
        else []),
      ApiHelpers.newsKey a ≠ "" →
      ∃ b ∈ ApiHelpers.dedupNewsAux []
          ((if company_name ≠ "" then fetchNews company_name else []) ++
            (if domain ≠ "" ∧ Py.strIn domain company_name = false then
              fetchNews (ApiHelpers.cleanDomain domain)
            else [])),
        ApiHelpers.newsKey b = ApiHelpers.newsKey a) := by
  refine ⟨?_, ?_, ?_, ?_, ?_, ?_⟩
  · intro h
    unfold ApiHelpers.fetch_news_articles_enhanced
    rw [if_pos h]
  · intro h
    unfold ApiHelpers.fetch_news_articles_enhanced
    rw [if_neg h, List.append_nil]
  · unfold ApiHelpers.fetch_news_articles_enhanced
    exact ((dedupNewsAux_nodup _ _).sublist
      ((List.take_sublist _ _).map ApiHelpers.newsKey))
  · unfold ApiHelpers.fetch_news_articles_enhanced
    exact (List.take_sublist _ _).trans (dedupNewsAux_sublist _ _)
  · unfold ApiHelpers.fetch_news_articles_enhanced
    exact List.length_take_le _ _
  · intro a ha hk
    rcases dedupNewsAux_covers [] _ a ha hk with hs | h
    · simp at hs
    · exact h

/-- The concrete news oracle for the C4 witness: the two queries overlap in a
title differing only in case. -/
def c4Fetch : String → List ApiHelpers.Article := fun q =>
  if q = "Acme" then [⟨"Acme Raises", "l1"⟩, ⟨"ACME RAISES", "l2"⟩]
  else [⟨"Domain News", "l3"⟩]

/-- Witness for C4: both the two-query and the one-query branch at concrete
inputs. -/
theorem C4_fetch_news_articles_enhanced_witness :
    ApiHelpers.fetch_news_articles_enhanced c4Fetch "Acme" "acme.com" 5 =
      (ApiHelpers.dedupNewsAux []
        ((if ("Acme" : String) ≠ "" then c4Fetch "Acme" else []) ++
          c4Fetch (ApiHelpers.cleanDomain "acme.com"))).take 5 ∧
    ApiHelpers.fetch_news_articles_enhanced c4Fetch "Acme" "" 5 =
      (ApiHelpers.dedupNewsAux []
        (if ("Acme" : String) ≠ "" then c4Fetch "Acme" else [])).take 5 :=
  ⟨(C4_fetch_news_articles_enhanced c4Fetch "Acme" "acme.com" 5).1 (by decide),
   (C4_fetch_news_articles_enhanced c4Fetch "Acme" "" 5).2.1 (by decide)⟩

example : ApiHelpers.fetch_news_articles_enhanced c4Fetch "Acme" "acme.com" 5 =
    [⟨"Acme Raises", "l1"⟩, ⟨"Domain News", "l3"⟩] := by decide

example : ApiHelpers.fetch_news_articles_enhanced c4Fetch "Acme" "acme.com" 1 =
    [⟨"Acme Raises", "l1"⟩] := by decide

/-! ## `scrape_website_content` — claims C6 and C10

The HTTP fetch plus BeautifulSoup parse is abstracted as an optional `Page`:
`none` models a failed `_safe_get` or a raised parse exception (both yield
`""`), and a `Page` carries the extracted element texts that the function
reads — title text, meta description, `h1` texts, first-paragraph text, the
stripped texts found by the five content-region selectors (in priority
order, missing selectors omitted), and the body text when a body element
exists.
-/

namespace ApiHelpers

structure Page where
  title : String
  description : String
  h1Texts : List String
  firstParagraph : String
  selectorTexts : List String
  body : Option String
deriving DecidableEq, Repr

/-- `', '.join(...)`. -/
def joinComma : List String → String
  | [] => ""
  | [x] => x
  | x :: y :: rest => x ++ ", " ++ joinComma (y :: rest)

/-- `' | '.join(...)`. -/
def joinBar : List String → String
  | [] => ""
  | [x] => x
  | x :: y :: rest => x ++ " | " ++ joinBar (y :: rest)

/-- The selector loop: the first selector-matched stripped text longer than
50 characters, truncated to 500. -/
def selectorBlock (p : Page) : List Char :=
  match (p.selectorTexts.map fun t => Py.stripChars t.data).find?
      (fun t => decide (50 < t.length)) with
  | some t => t.take 500
  | none => []

/-- `body.get_text().strip()` when a body element exists, else nothing. -/
def bodyStripped (p : Page) : List Char :=
  match p.body with
  | some b => Py.stripChars b.data
  | none => []

/-- The chosen `main_content` block before whitespace normalisation. -/
def mainBlock (p : Page) : List Char :=
  if selectorBlock p ≠ [] then selectorBlock p else (bodyStripped p).take 500

/-- `main_content` after `' '.join(main_content.split())`. -/
def mainContent (p : Page) : String :=
  if mainBlock p ≠ [] then ⟨Py.collapseChars (mainBlock p)⟩ else ""

/-- `first_p.get_text().strip()[:300]`. -/
def firstPara (p : Page) : String := ⟨(Py.stripChars p.firstParagraph.data).take 300⟩

/-- The `Content:` entry of `summary_parts`: the normalised main content, or
the first paragraph as fallback, or nothing. -/
def contentPart (p : Page) : List String :=
  if mainContent p ≠ "" then ["Content: " ++ mainContent p]
  else if firstPara p ≠ "" then ["Content: " ++ firstPara p]
  else []

/-- The `summary_parts` list: the non-empty prefixed fields in fixed order
(the headings entry appears whenever the `h1` list is non-empty). -/
def pageParts (p : Page) : List String :=
  (if Py.strip p.title ≠ "" then ["Title: " ++ Py.strip p.title] else []) ++
  (if Py.strip p.description ≠ "" then ["Description: " ++ Py.strip p.description] else []) ++
  (if (p.h1Texts.take 2).map Py.strip ≠ [] then
    ["Headings: " ++ joinComma ((p.h1Texts.take 2).map Py.strip)]
  else []) ++
  contentPart p

/-- The fixed string returned when a page was fetched but nothing was
extracted. -/
def contentSentinel : String := "Website content extracted but limited text available"

/-- The successful-fetch body of `scrape_website_content` (lines 98-155). -/
def scrape_website_content_page (p : Page) : String :=
  let result := joinBar ((pageParts p).filter fun s => s ≠ "")
  if result ≠ "" then result else contentSentinel

/-- `scrape_website_content`: empty on an invalid URL or a failed
fetch/parse, otherwise the successful-fetch extraction. -/
def scrape_website_content (url : String) (fetch : Option Page) : String :=
  if url = "" ∨ is_valid_url url = false then ""
  else
    match fetch with
    | none => ""
    | some p => scrape_website_content_page p

end ApiHelpers

/-! ### Whitespace-collapse facts for C6 -/

/-- Joining one more word costs its length plus at most one separator. -/
theorem joinWords_cons_length (w : List Char) (ws : List (List Char)) :
    (Py.joinWords (w :: ws)).length ≤ w.length + 1 + (Py.joinWords ws).length := by
  cases ws with
  | nil => simp [Py.joinWords]
  | cons y rest => simp [Py.joinWords]; omega

/-- The collapsed text is never longer than the splitting budget. -/
theorem joinWords_splitAux_length (l acc : List Char) :
    (Py.joinWords (Py.splitAux l acc)).length ≤ l.length + acc.length := by
  induction l generalizing acc with
  | nil =>
    unfold Py.splitAux
    by_cases h : acc.isEmpty
    · rw [if_pos h]; simp [Py.joinWords]
    · rw [if_neg h]; simp [Py.joinWords]
  | cons c t ih =>
    unfold Py.splitAux
    by_cases hc : Py.isSpace c
    · rw [if_pos hc]
      by_cases h : acc.isEmpty
      · rw [if_pos h]
        have := ih []
        simp only [List.length_nil, Nat.add_zero] at this
        simp only [List.length_cons]
        omega
      · rw [if_neg h]
        have h1 := joinWords_cons_length acc.reverse (Py.splitAux t [])
        have h2 := ih []
        simp only [List.length_nil, Nat.add_zero] at h2
        simp only [List.length_cons, List.length_reverse] at h1 ⊢
        omega
    · rw [if_neg hc]
      have := ih (c :: acc)
      simp only [List.length_cons] at this ⊢
      omega

/-- Whitespace collapsing never lengthens a string. -/
theorem collapseChars_length (l : List Char) :
    (Py.collapseChars l).length ≤ l.length := by
  have := joinWords_splitAux_length l []
  simpa [Py.collapseChars, Py.splitWs] using this

/-- `dropWhile` either empties the list or exposes a head that fails the
predicate. -/
theorem dropWhile_head_not (p : Char → Bool) (l : List Char) :
    l.dropWhile p = [] ∨ ∃ c rest, l.dropWhile p = c :: rest ∧ p c = false := by
  induction l with
  | nil => exact Or.inl rfl
  | cons c t ih =>
    rw [List.dropWhile_cons]
    by_cases hc : p c = true
    · rw [if_pos hc]; exact ih
    · rw [if_neg hc]
      exact Or.inr ⟨c, t, rfl, by simpa using hc⟩

/-- A stripped list is empty or starts with a non-whitespace character. -/
theorem stripChars_head_not_space (l : List Char) :
    Py.stripChars l = [] ∨
    ∃ c rest, Py.stripChars l = c :: rest ∧ Py.isSpace c = false := by
  unfold Py.stripChars
  rcases dropWhile_head_not Py.isSpace l with hA | ⟨c, rest, hcr, hc⟩
  · left; rw [hA]; rfl
  · have hpre : List.IsPrefix
        (((l.dropWhile Py.isSpace).reverse.dropWhile Py.isSpace).reverse)
        (l.dropWhile Py.isSpace) := by
      have hsuf := List.dropWhile_suffix (l := (l.dropWhile Py.isSpace).reverse)
        (p := Py.isSpace)
      have := List.reverse_prefix.mpr hsuf
      simpa using this
    cases hres : ((l.dropWhile Py.isSpace).reverse.dropWhile Py.isSpace).reverse with
    | nil => exact Or.inl rfl
    | cons d tail =>
      right
      refine ⟨d, tail, rfl, ?_⟩
      obtain ⟨u, hu⟩ := hpre
      rw [hres, hcr] at hu
      have : d = c := by
        have := congrArg List.head? hu
        simpa using this
      rw [this]
      exact hc

/-- Splitting with a non-empty accumulator yields a leading non-empty word. -/
theorem splitAux_ne_nil (t : List Char) (acc : List Char) (hacc : acc ≠ []) :
    ∃ w ws, Py.splitAux t acc = w :: ws ∧ w ≠ [] := by
  induction t generalizing acc with
  | nil =>
    refine ⟨acc.reverse, [], ?_, by simpa using hacc⟩
    unfold Py.splitAux
    rw [if_neg (by simpa using hacc)]
  | cons c t ih =>
    unfold Py.splitAux
    by_cases hc : Py.isSpace c
    · rw [if_pos hc, if_neg (by simpa using hacc)]
      exact ⟨acc.reverse, Py.splitAux t [], rfl, by simpa using hacc⟩
    · rw [if_neg hc]
      exact ih (c :: acc) (by simp)

/-- Collapsing a list that starts with a non-whitespace character is
non-empty. -/
theorem collapseChars_ne_nil (c : Char) (rest : List Char)
    (hc : Py.isSpace c = false) : Py.collapseChars (c :: rest) ≠ [] := by
  unfold Py.collapseChars Py.splitWs Py.splitAux
  rw [if_neg (by simp [hc])]
  obtain ⟨w, ws, hsplit, hw⟩ := splitAux_ne_nil rest [c] (by simp)
  rw [hsplit]
  cases ws with
  | nil =>
    simpa [Py.joinWords] using hw
  | cons y rest2 =>
    simp [Py.joinWords]

/-- Every selector block is at most 500 characters. -/
theorem selectorBlock_length (p : ApiHelpers.Page) :
    (ApiHelpers.selectorBlock p).length ≤ 500 := by
  unfold ApiHelpers.selectorBlock
  cases h : (p.selectorTexts.map fun t => Py.stripChars t.data).find?
      (fun t => decide (50 < t.length)) with
  | none => simp
  | some t => exact List.length_take_le 500 t

/-- The chosen main block is at most 500 characters. -/
theorem mainBlock_length (p : ApiHelpers.Page) :
    (ApiHelpers.mainBlock p).length ≤ 500 := by
  unfold ApiHelpers.mainBlock
  by_cases h : ApiHelpers.selectorBlock p ≠ []
  · rw [if_pos h]; exact selectorBlock_length p
  · rw [if_neg h]; exact List.length_take_le 500 _

/-- The chosen main block is empty or starts with a non-whitespace
character. -/
theorem mainBlock_head (p : ApiHelpers.Page) :
    ApiHelpers.mainBlock p = [] ∨
    ∃ c rest, ApiHelpers.mainBlock p = c :: rest ∧ Py.isSpace c = false := by
  unfold ApiHelpers.mainBlock
  by_cases hs : ApiHelpers.selectorBlock p ≠ []
  · rw [if_pos hs]
    cases hfind : (p.selectorTexts.map fun t => Py.stripChars t.data).find?
        (fun t => decide (50 < t.length)) with
    | none =>
      exfalso
      apply hs
      unfold ApiHelpers.selectorBlock
      rw [hfind]
    | some t =>
      have hsb : ApiHelpers.selectorBlock p = t.take 500 := by
        unfold ApiHelpers.selectorBlock
        rw [hfind]
      rw [hsb]
      have htmem := List.mem_of_find?_eq_some hfind
      obtain ⟨orig, _, horig⟩ := List.mem_map.mp htmem
      rcases stripChars_head_not_space orig.data with h0 | ⟨c, rest, hcr, hc⟩
      · left
        rw [horig] at h0
        rw [h0]
        rfl
      · right
        refine ⟨c, rest.take 499, ?_, hc⟩
        rw [horig] at hcr
        rw [hcr]
        rfl
  · rw [if_neg hs]
    cases hb : p.body with
    | none =>
      left
      unfold ApiHelpers.bodyStripped
      rw [hb]
      rfl
    | some b =>
      have hbs : ApiHelpers.bodyStripped p = Py.stripChars b.data := by
        unfold ApiHelpers.bodyStripped
        rw [hb]
      rw [hbs]
      rcases stripChars_head_not_space b.data with h0 | ⟨c, rest, hcr, hc⟩
      · left; rw [h0]; rfl
      · right
        exact ⟨c, rest.take 499, by rw [hcr]; rfl, hc⟩

/-- A non-empty main block yields a non-empty normalised main content. -/
theorem mainContent_ne (p : ApiHelpers.Page) (h : ApiHelpers.mainBlock p ≠ []) :
    ApiHelpers.mainContent p ≠ "" := by
  rcases mainBlock_head p with h0 | ⟨c, rest, hcr, hc⟩
  · exact absurd h0 h
  · unfold ApiHelpers.mainContent
    rw [if_pos h, hcr]
    intro heq
    have := (String.ext_iff.mp heq)
    exact collapseChars_ne_nil c rest hc this

/-- If the normalised main content is empty then (on any page whose
first-paragraph text is part of its body text) the `Content:` entry is
absent entirely. -/
theorem contentPart_of_empty_main (p : ApiHelpers.Page)
    (hreach : ApiHelpers.bodyStripped p = [] → Py.stripChars p.firstParagraph.data = [])
    (h : ApiHelpers.mainContent p = "") : ApiHelpers.contentPart p = [] := by
  have hmb : ApiHelpers.mainBlock p = [] := by
    by_contra hne
    exact mainContent_ne p hne h
  have hsel : ApiHelpers.selectorBlock p = [] := by
    by_contra hne
    unfold ApiHelpers.mainBlock at hmb
    rw [if_pos hne] at hmb
    exact hne hmb
  have hbody : ApiHelpers.bodyStripped p = [] := by
    unfold ApiHelpers.mainBlock at hmb
    rw [if_neg (by simpa using hsel)] at hmb
    rcases List.take_eq_nil_iff.mp hmb with h5 | hb
    · exact absurd h5 (by decide)
    · exact hb
  have hfp : ApiHelpers.firstPara p = "" := by
    unfold ApiHelpers.firstPara
    rw [hreach hbody]
    rfl
  unfold ApiHelpers.contentPart
  rw [if_neg (by simpa using h), if_neg (by simpa using hfp)]

/-- A successfully fetched page from which nothing at all is extracted. -/
def emptyPage : ApiHelpers.Page := ⟨"", "", [], "", [], some ""⟩

/-- Claim C6 counterexample: on a successfully fetched page with no
extractable fields the function returns the fixed sentinel, which is neither
the empty string nor the join of the (zero) non-empty extracted fields. -/
theorem C6_counterexample :
    ¬ (ApiHelpers.scrape_website_content "https://example.com" (some emptyPage) = "" ∨
       ApiHelpers.scrape_website_content "https://example.com" (some emptyPage) =
         ApiHelpers.joinBar ((ApiHelpers.pageParts emptyPage).filter fun s => s ≠ "")) := by
  decide

/-- Claim C6, amended: `scrape_website_content` returns the empty string (on
an invalid URL or a failed fetch/parse), or the fixed sentinel (successful
fetch, nothing extracted), or the `" | "`-join of exactly the non-empty
prefixed fields, where the `Content:` field — when present — is the
whitespace-collapse of a block of at most 500 characters and is itself at
most 500 characters.  The hypothesis states the html5lib invariant that the
first paragraph's text is part of the body text. -/
theorem C6_scrape_website_content (url : String) (fetch : Option ApiHelpers.Page)
    (hreach : ∀ p, fetch = some p → ApiHelpers.bodyStripped p = [] →
      Py.stripChars p.firstParagraph.data = []) :
    ApiHelpers.scrape_website_content url fetch = "" ∨
    ApiHelpers.scrape_website_content url fetch = ApiHelpers.contentSentinel ∨
    ∃ p, fetch = some p ∧
      ApiHelpers.scrape_website_content url fetch =
        ApiHelpers.joinBar ((ApiHelpers.pageParts p).filter fun s => s ≠ "") ∧
      ApiHelpers.pageParts p ≠ [] ∧
      (ApiHelpers.contentPart p = [] ∨
        ∃ block : List Char, block.length ≤ 500 ∧
          ApiHelpers.contentPart p = ["Content: " ++ (⟨Py.collapseChars block⟩ : String)] ∧
          (Py.collapseChars block).length ≤ 500) := by
  by_cases hv : url = "" ∨ ApiHelpers.is_valid_url url = false
  · left
    unfold ApiHelpers.scrape_website_content
    rw [if_pos hv]
  · cases fetch with
    | none =>
      left
      unfold ApiHelpers.scrape_website_content
      rw [if_neg hv]
    | some p =>
      have hsc : ApiHelpers.scrape_website_content url (some p) =
          ApiHelpers.scrape_website_content_page p := by
        unfold ApiHelpers.scrape_website_content
        rw [if_neg hv]
      have hpage : ApiHelpers.scrape_website_content_page p =
          if ApiHelpers.joinBar ((ApiHelpers.pageParts p).filter fun s => s ≠ "") ≠ "" then
            ApiHelpers.joinBar ((ApiHelpers.pageParts p).filter fun s => s ≠ "")
          else ApiHelpers.contentSentinel := rfl
      rw [hsc, hpage]
      by_cases hr : ApiHelpers.joinBar ((ApiHelpers.pageParts p).filter fun s => s ≠ "") = ""
      · rw [if_neg (by simpa using hr)]
        exact Or.inr (Or.inl rfl)
      · rw [if_pos (by simpa using hr)]
        refine Or.inr (Or.inr ⟨p, rfl, rfl, ?_, ?_⟩)
        · intro hparts
          apply hr
          rw [hparts]
          rfl
        · by_cases hm : ApiHelpers.mainContent p = ""
          · exact Or.inl (contentPart_of_empty_main p (hreach p rfl) hm)
          · right
            have hmb : ApiHelpers.mainBlock p ≠ [] := by
              intro hb
              apply hm
              unfold ApiHelpers.mainContent
              rw [if_neg (by simpa using hb)]
            refine ⟨ApiHelpers.mainBlock p, mainBlock_length p, ?_, ?_⟩
            · unfold ApiHelpers.contentPart
              rw [if_pos (by simpa using hm)]
              unfold ApiHelpers.mainContent
              rw [if_pos (by simpa using hmb)]
            · exact le_trans (collapseChars_length _) (mainBlock_length p)

/-- A concrete page for the C6 witness. -/
def c6Page : ApiHelpers.Page :=
  ⟨"Acme", "Tools maker", ["Welcome"], "", [], some "We make industrial tools"⟩

/-- Witness for C6 at a concrete URL and page. -/
theorem C6_scrape_website_content_witness :
    ApiHelpers.scrape_website_content "https://acme.example" (some c6Page) = "" ∨
    ApiHelpers.scrape_website_content "https://acme.example" (some c6Page) =
      ApiHelpers.contentSentinel ∨
    ∃ p, some c6Page = some p ∧
      ApiHelpers.scrape_website_content "https://acme.example" (some c6Page) =
        ApiHelpers.joinBar ((ApiHelpers.pageParts p).filter fun s => s ≠ "") ∧
      ApiHelpers.pageParts p ≠ [] ∧
      (ApiHelpers.contentPart p = [] ∨
        ∃ block : List Char, block.length ≤ 500 ∧
          ApiHelpers.contentPart p = ["Content: " ++ (⟨Py.collapseChars block⟩ : String)] ∧
          (Py.collapseChars block).length ≤ 500) :=
  C6_scrape_website_content "https://acme.example" (some c6Page)
    (by intro p hp hb; cases hp; exact absurd hb (by decide))

/-! ## `research_company_thoroughly` — claims C1, C3, C10

The five outbound adapters are abstracted as a `ResearchOracle`: each field
maps the request key actually used by the aggregator to the data the adapter
returns.  `brandFetch` stands for `fetch_brandfetch_data_enhanced` (an empty
dict is `none`; a non-empty dict always carries a name, since
`fetch_brandfetch_data` defaults the name to the queried domain).
The seven pipeline stages are written as explicit state transformers so the
append-only growth of `sources_used` can be tracked stage by stage.
-/

namespace ApiHelpers

structure Brand where
  logo : String
  name : String
deriving DecidableEq, Repr

structure ResearchOracle where
  findWebsite : String → String
  brandFetch : String → Option Brand
  scrape : String → String
  ddgSummary : String → String
  news : String → String → List Article
  inferIndustry : String → String → String

structure ResearchRecord where
  company_name : String
  website : String
  canonical_name : String
  summary : String
  news : List Article
  logo : String
  industry : String
  sources_used : List String
deriving DecidableEq, Repr

/-- The aggregator's mutable state: the result dict plus the local variables
`domain` and `website_content`. -/
structure AggState where
  res : ResearchRecord
  domain : String
  websiteContent : String
deriving DecidableEq, Repr

/-- The freshly initialised results dict. -/
def initState (company_name website : String) : AggState :=
  ⟨⟨company_name, website, company_name, "", [], "", "", []⟩, "", ""⟩

/-- Stage 1: website discovery when none was supplied. -/
def stageFindWebsite (o : ResearchOracle) (s : AggState) : AggState :=
  if s.res.website = "" then
    { s with res := { s.res with website := o.findWebsite s.res.company_name } }
  else s

/-- Stage 2: derive the domain from the (possibly discovered) website. -/
def stageDomain (s : AggState) : AggState :=
  { s with domain := if s.res.website ≠ "" then extract_domain s.res.website else "" }

/-- Stage 3: brand lookup — overwrite logo and canonical name on success. -/
def stageBrand (o : ResearchOracle) (s : AggState) : AggState :=
  if s.domain ≠ "" then
    match o.brandFetch s.domain with
    | some b =>
      { s with res :=
          { s.res with
            logo := b.logo
            canonical_name := b.name
            sources_used := s.res.sources_used ++ ["Brandfetch"] } }
    | none => s
  else s

/-- Stage 4: website scraping — record the source if content was returned. -/
def stageScrape (o : ResearchOracle) (s : AggState) : AggState :=
  if s.res.website ≠ "" then
    if o.scrape s.res.website ≠ "" then
      { s with
        websiteContent := o.scrape s.res.website
        res := { s.res with sources_used := s.res.sources_used ++ ["Website Content"] } }
    else { s with websiteContent := o.scrape s.res.website }
  else s

/-- Stage 5: summary — DuckDuckGo keyed on the canonical name, falling back
to the scraped website content. -/
def stageSummary (o : ResearchOracle) (s : AggState) : AggState :=
  if o.ddgSummary s.res.canonical_name ≠ "" then
    { s with res :=
        { s.res with
          summary := o.ddgSummary s.res.canonical_name
          sources_used := s.res.sources_used ++ ["DuckDuckGo"] } }
  else if s.websiteContent ≠ "" then
    { s with res :=
        { s.res with
          summary := s.websiteContent
          sources_used := s.res.sources_used ++ ["Website Summary"] } }
  else s

/-- Stage 6: news keyed on canonical name and domain (limit 5 inside the
oracle). -/
def stageNews (o : ResearchOracle) (s : AggState) : AggState :=
  if o.news s.res.canonical_name s.domain ≠ [] then
    { s with res :=
        { s.res with
          news := o.news s.res.canonical_name s.domain
          sources_used := s.res.sources_used ++ ["NewsData"] } }
  else s

/-- Stage 7: industry inference when a summary exists. -/
def stageIndustry (o : ResearchOracle) (s : AggState) : AggState :=
  if s.res.summary ≠ "" then
    { s with res :=
        { s.res with
          industry := o.inferIndustry s.res.canonical_name s.res.summary
          sources_used := s.res.sources_used ++ ["AI Industry Classification"] } }
  else s

/-- `research_company_thoroughly`: the seven stages in their fixed order. -/
def research_company_thoroughly (o : ResearchOracle)
    (company_name : String) (website : String := "") : ResearchRecord :=
  (stageIndustry o (stageNews o (stageSummary o (stageScrape o
    (stageBrand o (stageDomain (stageFindWebsite o
      (initState company_name website)))))))).res

end ApiHelpers

/-- A pipeline stage leaves `sources_used` unchanged or appends exactly one
label at the end. -/
def growsByAtMostOne (f : ApiHelpers.AggState → ApiHelpers.AggState) : Prop :=
  ∀ s, (f s).res.sources_used = s.res.sources_used ∨
    ∃ lbl, (f s).res.sources_used = s.res.sources_used ++ [lbl]

/-- The source labels in stage order ("DuckDuckGo" and "Website Summary" are
the mutually exclusive alternatives of the summary stage). -/
def sourceLabels : List String :=
  ["Brandfetch", "Website Content", "DuckDuckGo", "Website Summary", "NewsData",
   "AI Industry Classification"]

theorem stageFindWebsite_sources (o : ApiHelpers.ResearchOracle) (s : ApiHelpers.AggState) :
    (ApiHelpers.stageFindWebsite o s).res.sources_used = s.res.sources_used := by
  unfold ApiHelpers.stageFindWebsite
  by_cases h : s.res.website = "" <;> simp [h]

theorem stageDomain_sources (s : ApiHelpers.AggState) :
    (ApiHelpers.stageDomain s).res.sources_used = s.res.sources_used := rfl

theorem stageBrand_sources (o : ApiHelpers.ResearchOracle) (s : ApiHelpers.AggState) :
    (ApiHelpers.stageBrand o s).res.sources_used = s.res.sources_used ∨
    (ApiHelpers.stageBrand o s).res.sources_used = s.res.sources_used ++ ["Brandfetch"] := by
  unfold ApiHelpers.stageBrand
  by_cases h : s.domain ≠ ""
  · rw [if_pos h]
    cases o.brandFetch s.domain with
    | some b => exact Or.inr rfl
    | none => exact Or.inl rfl
  · rw [if_neg h]; exact Or.inl rfl

theorem stageScrape_sources (o : ApiHelpers.ResearchOracle) (s : ApiHelpers.AggState) :
    (ApiHelpers.stageScrape o s).res.sources_used = s.res.sources_used ∨
    (ApiHelpers.stageScrape o s).res.sources_used =
      s.res.sources_used ++ ["Website Content"] := by
  unfold ApiHelpers.stageScrape
  by_cases h : s.res.website ≠ ""
  · rw [if_pos h]
    by_cases h2 : o.scrape s.res.website ≠ ""
    · rw [if_pos h2]; exact Or.inr rfl
    · rw [if_neg h2]; exact Or.inl rfl
  · rw [if_neg h]; exact Or.inl rfl

theorem stageSummary_sources (o : ApiHelpers.ResearchOracle) (s : ApiHelpers.AggState) :
    (ApiHelpers.stageSummary o s).res.sources_used = s.res.sources_used ∨
    (ApiHelpers.stageSummary o s).res.sources_used = s.res.sources_used ++ ["DuckDuckGo"] ∨
    (ApiHelpers.stageSummary o s).res.sources_used =
      s.res.sources_used ++ ["Website Summary"] := by
  unfold ApiHelpers.stageSummary
  by_cases h : o.ddgSummary s.res.canonical_name ≠ ""
  · rw [if_pos h]; exact Or.inr (Or.inl rfl)
  · rw [if_neg h]
    by_cases h2 : s.websiteContent ≠ ""
    · rw [if_pos h2]; exact Or.inr (Or.inr rfl)
    · rw [if_neg h2]; exact Or.inl rfl

theorem stageNews_sources (o : ApiHelpers.ResearchOracle) (s : ApiHelpers.AggState) :
    (ApiHelpers.stageNews o s).res.sources_used = s.res.sources_used ∨
    (ApiHelpers.stageNews o s).res.sources_used = s.res.sources_used ++ ["NewsData"] := by
  unfold ApiHelpers.stageNews
  by_cases h : o.news s.res.canonical_name s.domain ≠ []
  · rw [if_pos h]; exact Or.inr rfl
  · rw [if_neg h]; exact Or.inl rfl

theorem stageIndustry_sources (o : ApiHelpers.ResearchOracle) (s : ApiHelpers.AggState) :
    (ApiHelpers.stageIndustry o s).res.sources_used = s.res.sources_used ∨
    (ApiHelpers.stageIndustry o s).res.sources_used =
      s.res.sources_used ++ ["AI Industry Classification"] := by
  unfold ApiHelpers.stageIndustry
  by_cases h : s.res.summary ≠ ""
  · rw [if_pos h]; exact Or.inr rfl
  · rw [if_neg h]; exact Or.inl rfl

/-- Appending a label inside a growing label budget. -/
theorem sublist_snoc_within {α : Type} {l L : List α} (h : List.Sublist l L) (x : α)
    (M : List α) : List.Sublist (l ++ [x]) (L ++ x :: M) := by
  have h1 : List.Sublist (l ++ [x]) (L ++ [x]) := h.append (List.Sublist.refl [x])
  have h2 : List.Sublist (L ++ [x]) ((L ++ [x]) ++ M) := List.sublist_append_left _ _
  have := h1.trans h2
  simpa [List.append_assoc] using this

/-- Widening the label budget. -/
theorem sublist_widen {α : Type} {l L : List α} (h : List.Sublist l L) (M : List α) :
    List.Sublist l (L ++ M) := h.trans (List.sublist_append_left L M)

/-! ### Per-stage field equations -/

theorem stageFindWebsite_fields (o : ApiHelpers.ResearchOracle) (s : ApiHelpers.AggState) :
    (ApiHelpers.stageFindWebsite o s).res.company_name = s.res.company_name ∧
    (ApiHelpers.stageFindWebsite o s).res.canonical_name = s.res.canonical_name ∧
    (ApiHelpers.stageFindWebsite o s).res.summary = s.res.summary ∧
    (ApiHelpers.stageFindWebsite o s).domain = s.domain ∧
    (ApiHelpers.stageFindWebsite o s).websiteContent = s.websiteContent ∧
    (ApiHelpers.stageFindWebsite o s).res.website =
      (if s.res.website = "" then o.findWebsite s.res.company_name else s.res.website) := by
  unfold ApiHelpers.stageFindWebsite
  by_cases h : s.res.website = "" <;> simp [h]

theorem stageDomain_fields (s : ApiHelpers.AggState) :
    (ApiHelpers.stageDomain s).res = s.res ∧
    (ApiHelpers.stageDomain s).websiteContent = s.websiteContent ∧
    (ApiHelpers.stageDomain s).domain =
      (if s.res.website ≠ "" then ApiHelpers.extract_domain s.res.website else "") :=
  ⟨rfl, rfl, rfl⟩

theorem stageBrand_fields (o : ApiHelpers.ResearchOracle) (s : ApiHelpers.AggState) :
    (ApiHelpers.stageBrand o s).res.company_name = s.res.company_name ∧
    (ApiHelpers.stageBrand o s).res.website = s.res.website ∧
    (ApiHelpers.stageBrand o s).res.summary = s.res.summary ∧
    (ApiHelpers.stageBrand o s).domain = s.domain ∧
    (ApiHelpers.stageBrand o s).websiteContent = s.websiteContent := by
  unfold ApiHelpers.stageBrand
  by_cases h : s.domain ≠ ""
  · rw [if_pos h]
    cases o.brandFetch s.domain <;> exact ⟨rfl, rfl, rfl, rfl, rfl⟩
  · rw [if_neg h]
    exact ⟨rfl, rfl, rfl, rfl, rfl⟩

theorem stageBrand_canonical_none (o : ApiHelpers.ResearchOracle) (s : ApiHelpers.AggState)
    (h : o.brandFetch s.domain = none) :
    (ApiHelpers.stageBrand o s).res.canonical_name = s.res.canonical_name := by
  unfold ApiHelpers.stageBrand
  by_cases hd : s.domain ≠ ""
  · rw [if_pos hd, h]
  · rw [if_neg hd]

theorem stageScrape_fields (o : ApiHelpers.ResearchOracle) (s : ApiHelpers.AggState) :
    (ApiHelpers.stageScrape o s).res.canonical_name = s.res.canonical_name ∧
    (ApiHelpers.stageScrape o s).res.website = s.res.website ∧
    (ApiHelpers.stageScrape o s).res.summary = s.res.summary ∧
    (ApiHelpers.stageScrape o s).domain = s.domain ∧
    (ApiHelpers.stageScrape o s).websiteContent =
      (if s.res.website ≠ "" then o.scrape s.res.website else s.websiteContent) := by
  unfold ApiHelpers.stageScrape
  by_cases h : s.res.website ≠ ""
  · rw [if_pos h]
    by_cases h2 : o.scrape s.res.website ≠ ""
    · rw [if_pos h2]
      exact ⟨rfl, rfl, rfl, rfl, by rw [if_pos h]⟩
    · rw [if_neg h2]
      exact ⟨rfl, rfl, rfl, rfl, by rw [if_pos h]⟩
  · rw [if_neg h]
    exact ⟨rfl, rfl, rfl, rfl, by rw [if_neg h]⟩

theorem stageScrape_records (o : ApiHelpers.ResearchOracle) (s : ApiHelpers.AggState)
    (h : s.res.website ≠ "") (h2 : o.scrape s.res.website ≠ "") :
    (ApiHelpers.stageScrape o s).res.sources_used =
      s.res.sources_used ++ ["Website Content"] := by
  unfold ApiHelpers.stageScrape
  rw [if_pos h, if_pos h2]

theorem stageSummary_fields (o : ApiHelpers.ResearchOracle) (s : ApiHelpers.AggState) :
    (ApiHelpers.stageSummary o s).res.canonical_name = s.res.canonical_name ∧
    (ApiHelpers.stageSummary o s).res.website = s.res.website ∧
    (ApiHelpers.stageSummary o s).domain = s.domain ∧
    (ApiHelpers.stageSummary o s).websiteContent = s.websiteContent := by
  unfold ApiHelpers.stageSummary
  by_cases h : o.ddgSummary s.res.canonical_name ≠ ""
  · rw [if_pos h]
    exact ⟨rfl, rfl, rfl, rfl⟩
  · rw [if_neg h]
    by_cases h2 : s.websiteContent ≠ ""
    · rw [if_pos h2]
      exact ⟨rfl, rfl, rfl, rfl⟩
    · rw [if_neg h2]
      exact ⟨rfl, rfl, rfl, rfl⟩

theorem stageSummary_fallback (o : ApiHelpers.ResearchOracle) (s : ApiHelpers.AggState)
    (hd : o.ddgSummary s.res.canonical_name = "") (hwc : s.websiteContent ≠ "") :
    (ApiHelpers.stageSummary o s).res.summary = s.websiteContent ∧
    (ApiHelpers.stageSummary o s).res.sources_used =
      s.res.sources_used ++ ["Website Summary"] := by
  unfold ApiHelpers.stageSummary
  rw [if_neg (by simp [hd]), if_pos hwc]
  exact ⟨rfl, rfl⟩

theorem stageNews_fields (o : ApiHelpers.ResearchOracle) (s : ApiHelpers.AggState) :
    (ApiHelpers.stageNews o s).res.canonical_name = s.res.canonical_name ∧
    (ApiHelpers.stageNews o s).res.website = s.res.website ∧
    (ApiHelpers.stageNews o s).res.summary = s.res.summary := by
  unfold ApiHelpers.stageNews
  by_cases h : o.news s.res.canonical_name s.domain ≠ []
  · rw [if_pos h]
    exact ⟨rfl, rfl, rfl⟩
  · rw [if_neg h]
    exact ⟨rfl, rfl, rfl⟩

theorem stageIndustry_fields (o : ApiHelpers.ResearchOracle) (s : ApiHelpers.AggState) :
    (ApiHelpers.stageIndustry o s).res.canonical_name = s.res.canonical_name ∧
    (ApiHelpers.stageIndustry o s).res.website = s.res.website ∧
    (ApiHelpers.stageIndustry o s).res.summary = s.res.summary := by
  unfold ApiHelpers.stageIndustry
  by_cases h : s.res.summary ≠ ""
  · rw [if_pos h]
    exact ⟨rfl, rfl, rfl⟩
  · rw [if_neg h]
    exact ⟨rfl, rfl, rfl⟩

/-- Claim C3: during one aggregator run, each of the seven stages leaves
`sources_used` unchanged or appends exactly one label at the end (so the
list only grows and existing labels are never removed or reordered), the
aggregator is exactly the seven-stage composition, and the final list is an
order-preserving sublist of the fixed stage-label sequence. -/
theorem C3_sources_used_growth (o : ApiHelpers.ResearchOracle)
    (company_name website : String) :
    growsByAtMostOne (ApiHelpers.stageFindWebsite o) ∧
    growsByAtMostOne ApiHelpers.stageDomain ∧
    growsByAtMostOne (ApiHelpers.stageBrand o) ∧
    growsByAtMostOne (ApiHelpers.stageScrape o) ∧
    growsByAtMostOne (ApiHelpers.stageSummary o) ∧
    growsByAtMostOne (ApiHelpers.stageNews o) ∧
    growsByAtMostOne (ApiHelpers.stageIndustry o) ∧
    ApiHelpers.research_company_thoroughly o company_name website =
      (ApiHelpers.stageIndustry o (ApiHelpers.stageNews o (ApiHelpers.stageSummary o
        (ApiHelpers.stageScrape o (ApiHelpers.stageBrand o (ApiHelpers.stageDomain
          (ApiHelpers.stageFindWebsite o
            (ApiHelpers.initState company_name website)))))))).res ∧
    List.Sublist
      (ApiHelpers.research_company_thoroughly o company_name website).sources_used
      sourceLabels := by
  refine ⟨?_, ?_, ?_, ?_, ?_, ?_, ?_, rfl, ?_⟩
  · intro s; exact Or.inl (stageFindWebsite_sources o s)
  · intro s; exact Or.inl (stageDomain_sources s)
  · intro s
    rcases stageBrand_sources o s with h | h
    · exact Or.inl h
    · exact Or.inr ⟨_, h⟩
  · intro s
    rcases stageScrape_sources o s with h | h
    · exact Or.inl h
    · exact Or.inr ⟨_, h⟩
  · intro s
    rcases stageSummary_sources o s with h | h | h
    · exact Or.inl h
    · exact Or.inr ⟨_, h⟩
    · exact Or.inr ⟨_, h⟩
  · intro s
    rcases stageNews_sources o s with h | h
    · exact Or.inl h
    · exact Or.inr ⟨_, h⟩
  · intro s
    rcases stageIndustry_sources o s with h | h
    · exact Or.inl h
    · exact Or.inr ⟨_, h⟩
  · have hs2 : (ApiHelpers.stageDomain (ApiHelpers.stageFindWebsite o
        (ApiHelpers.initState company_name website))).res.sources_used = [] := by
      rw [stageDomain_sources, stageFindWebsite_sources]
      rfl
    have h3 : List.Sublist (ApiHelpers.stageBrand o (ApiHelpers.stageDomain
        (ApiHelpers.stageFindWebsite o
          (ApiHelpers.initState company_name website)))).res.sources_used
        ["Brandfetch"] := by
      rcases stageBrand_sources o (ApiHelpers.stageDomain (ApiHelpers.stageFindWebsite o
          (ApiHelpers.initState company_name website))) with h | h <;> rw [h, hs2] <;> simp
    have h4 : List.Sublist (ApiHelpers.stageScrape o (ApiHelpers.stageBrand o
        (ApiHelpers.stageDomain (ApiHelpers.stageFindWebsite o
          (ApiHelpers.initState company_name website))))).res.sources_used
        ["Brandfetch", "Website Content"] := by
      rcases stageScrape_sources o (ApiHelpers.stageBrand o (ApiHelpers.stageDomain
          (ApiHelpers.stageFindWebsite o
            (ApiHelpers.initState company_name website)))) with h | h
      · rw [h]; exact sublist_widen h3 ["Website Content"]
      · rw [h]; exact sublist_snoc_within h3 "Website Content" []
    have h5 : List.Sublist (ApiHelpers.stageSummary o (ApiHelpers.stageScrape o
        (ApiHelpers.stageBrand o (ApiHelpers.stageDomain (ApiHelpers.stageFindWebsite o
          (ApiHelpers.initState company_name website)))))).res.sources_used
        ["Brandfetch", "Website Content", "DuckDuckGo", "Website Summary"] := by
      rcases stageSummary_sources o (ApiHelpers.stageScrape o (ApiHelpers.stageBrand o
          (ApiHelpers.stageDomain (ApiHelpers.stageFindWebsite o
            (ApiHelpers.initState company_name website))))) with h | h | h
      · rw [h]; exact sublist_widen h4 ["DuckDuckGo", "Website Summary"]
      · rw [h]; exact sublist_snoc_within h4 "DuckDuckGo" ["Website Summary"]
      · rw [h]; exact sublist_snoc_within (sublist_widen h4 ["DuckDuckGo"]) "Website Summary" []
    have h6 : List.Sublist (ApiHelpers.stageNews o (ApiHelpers.stageSummary o
        (ApiHelpers.stageScrape o (ApiHelpers.stageBrand o (ApiHelpers.stageDomain
          (ApiHelpers.stageFindWebsite o
            (ApiHelpers.initState company_name website))))))).res.sources_used
        ["Brandfetch", "Website Content", "DuckDuckGo", "Website Summary", "NewsData"] := by
      rcases stageNews_sources o (ApiHelpers.stageSummary o (ApiHelpers.stageScrape o
          (ApiHelpers.stageBrand o (ApiHelpers.stageDomain (ApiHelpers.stageFindWebsite o
            (ApiHelpers.initState company_name website)))))) with h | h
      · rw [h]; exact sublist_widen h5 ["NewsData"]
      · rw [h]; exact sublist_snoc_within h5 "NewsData" []
    rcases stageIndustry_sources o (ApiHelpers.stageNews o (ApiHelpers.stageSummary o
        (ApiHelpers.stageScrape o (ApiHelpers.stageBrand o (ApiHelpers.stageDomain
          (ApiHelpers.stageFindWebsite o
            (ApiHelpers.initState company_name website))))))) with h | h
    · show List.Sublist (ApiHelpers.stageIndustry o (ApiHelpers.stageNews o
        (ApiHelpers.stageSummary o (ApiHelpers.stageScrape o (ApiHelpers.stageBrand o
          (ApiHelpers.stageDomain (ApiHelpers.stageFindWebsite o
            (ApiHelpers.initState company_name website)))))))).res.sources_used sourceLabels
      rw [h]
      exact sublist_widen h6 ["AI Industry Classification"]
    · show List.Sublist (ApiHelpers.stageIndustry o (ApiHelpers.stageNews o
        (ApiHelpers.stageSummary o (ApiHelpers.stageScrape o (ApiHelpers.stageBrand o
          (ApiHelpers.stageDomain (ApiHelpers.stageFindWebsite o
            (ApiHelpers.initState company_name website)))))))).res.sources_used sourceLabels
      rw [h]
      exact sublist_snoc_within h6 "AI Industry Classification" []

/-- Claim C1: if the brand lookup at the derived domain returns an empty
result, the returned record's `canonical_name` equals the input name; and if
the DuckDuckGo lookup (keyed on the record's canonical name) is empty while
the website-content adapter returned a non-empty string, the record's
`summary` is that website content and `sources_used` contains
"Website Summary" but not "DuckDuckGo". -/
theorem C1_aggregator_fallbacks (o : ApiHelpers.ResearchOracle)
    (company_name website : String) :
    (o.brandFetch (ApiHelpers.stageDomain (ApiHelpers.stageFindWebsite o
        (ApiHelpers.initState company_name website))).domain = none →
      (ApiHelpers.research_company_thoroughly o company_name website).canonical_name =
        company_name) ∧
    (o.ddgSummary
        (ApiHelpers.research_company_thoroughly o company_name website).canonical_name = "" →
      (ApiHelpers.research_company_thoroughly o company_name website).website ≠ "" →
      o.scrape (ApiHelpers.research_company_thoroughly o company_name website).website ≠ "" →
      (ApiHelpers.research_company_thoroughly o company_name website).summary =
        o.scrape (ApiHelpers.research_company_thoroughly o company_name website).website ∧
      "Website Summary" ∈
        (ApiHelpers.research_company_thoroughly o company_name website).sources_used ∧
      "DuckDuckGo" ∉
        (ApiHelpers.research_company_thoroughly o company_name website).sources_used) := by
  have er : ApiHelpers.research_company_thoroughly o company_name website =
      (ApiHelpers.stageIndustry o (ApiHelpers.stageNews o (ApiHelpers.stageSummary o
        (ApiHelpers.stageScrape o (ApiHelpers.stageBrand o (ApiHelpers.stageDomain
          (ApiHelpers.stageFindWebsite o
            (ApiHelpers.initState company_name website)))))))).res := rfl
  rw [er]
  set s1 := ApiHelpers.stageFindWebsite o (ApiHelpers.initState company_name website) with hs1
  set s2 := ApiHelpers.stageDomain s1 with hs2
  set s3 := ApiHelpers.stageBrand o s2 with hs3
  set s4 := ApiHelpers.stageScrape o s3 with hs4
  set s5 := ApiHelpers.stageSummary o s4 with hs5
  set s6 := ApiHelpers.stageNews o s5 with hs6
  set s7 := ApiHelpers.stageIndustry o s6 with hs7
  have hweb : s7.res.website = s3.res.website := by
    rw [hs7, (stageIndustry_fields o s6).2.1, hs6, (stageNews_fields o s5).2.1, hs5,
      (stageSummary_fields o s4).2.1, hs4, (stageScrape_fields o s3).2.1]
  have hcanon : s7.res.canonical_name = s4.res.canonical_name := by
    rw [hs7, (stageIndustry_fields o s6).1, hs6, (stageNews_fields o s5).1, hs5,
      (stageSummary_fields o s4).1]
  have hs2src : s2.res.sources_used = [] := by
    rw [hs2, stageDomain_sources, hs1, stageFindWebsite_sources]
    rfl
  constructor
  · intro hbrand
    rw [hs7, (stageIndustry_fields o s6).1, hs6, (stageNews_fields o s5).1, hs5,
      (stageSummary_fields o s4).1, hs4, (stageScrape_fields o s3).1, hs3,
      stageBrand_canonical_none o s2 hbrand, hs2, (stageDomain_fields s1).1, hs1,
      (stageFindWebsite_fields o (ApiHelpers.initState company_name website)).2.1]
    rfl
  · intro hd hw hsc
    have hw3 : s3.res.website ≠ "" := by rw [← hweb]; exact hw
    have hsc3 : o.scrape s3.res.website ≠ "" := by rw [← hweb]; exact hsc
    have hwc3 : s3.websiteContent = "" := by
      rw [hs3, (stageBrand_fields o s2).2.2.2.2, hs2, (stageDomain_fields s1).2.1, hs1,
        (stageFindWebsite_fields o (ApiHelpers.initState company_name website)).2.2.2.2.1]
      rfl
    have hwc4 : s4.websiteContent = o.scrape s3.res.website := by
      rw [hs4, (stageScrape_fields o s3).2.2.2.2, if_pos hw3]
    have hwcne : s4.websiteContent ≠ "" := by rw [hwc4]; exact hsc3
    have hd4 : o.ddgSummary s4.res.canonical_name = "" := by rw [← hcanon]; exact hd
    have hfall := stageSummary_fallback o s4 hd4 hwcne
    refine ⟨?_, ?_, ?_⟩
    · rw [hweb, hs7, (stageIndustry_fields o s6).2.2, hs6, (stageNews_fields o s5).2.2, hs5,
        hfall.1, hwc4]
    · rcases stageBrand_sources o s2 with h3 | h3 <;>
      rcases stageScrape_sources o s3 with h4 | h4 <;>
      rcases stageNews_sources o s5 with h6 | h6 <;>
      rcases stageIndustry_sources o s6 with h7 | h7 <;>
      rw [hs7, h7, hs6, h6, hs5, hfall.2, hs4, h4, hs3, h3, hs2src] <;> decide
    · rcases stageBrand_sources o s2 with h3 | h3 <;>
      rcases stageScrape_sources o s3 with h4 | h4 <;>
      rcases stageNews_sources o s5 with h6 | h6 <;>
      rcases stageIndustry_sources o s6 with h7 | h7 <;>
      rw [hs7, h7, hs6, h6, hs5, hfall.2, hs4, h4, hs3, h3, hs2src] <;> decide

/-- The concrete oracle for the C1 witness: brand lookup empty, DuckDuckGo
empty, website content present. -/
def c1Oracle : ApiHelpers.ResearchOracle where
  findWebsite := fun _ => "https://acme.example"
  brandFetch := fun _ => none
  scrape := fun _ => "Title: Acme"
  ddgSummary := fun _ => ""
  news := fun _ _ => []
  inferIndustry := fun _ _ => "Unknown"

/-- Witness for C1 at a concrete oracle and inputs. -/
theorem C1_aggregator_fallbacks_witness :
    (ApiHelpers.research_company_thoroughly c1Oracle "Acme" "").canonical_name = "Acme" ∧
    (ApiHelpers.research_company_thoroughly c1Oracle "Acme" "").summary =
      c1Oracle.scrape (ApiHelpers.research_company_thoroughly c1Oracle "Acme" "").website ∧
    "Website Summary" ∈
      (ApiHelpers.research_company_thoroughly c1Oracle "Acme" "").sources_used ∧
    "DuckDuckGo" ∉
      (ApiHelpers.research_company_thoroughly c1Oracle "Acme" "").sources_used := by
  have h := C1_aggregator_fallbacks c1Oracle "Acme" ""
  exact ⟨h.1 rfl, h.2 rfl (by decide) (by decide)⟩

/-- A page for the C10 witness with some extractable content. -/
def c10Page : ApiHelpers.Page := ⟨"Beta", "", [], "", [], some "Beta systems"⟩

/-- A successfully fetched page with nothing extractable, for the sentinel
part of the C10 witness. -/
def c10Empty : ApiHelpers.Page := ⟨"", "", [], "", [], none⟩

/-- The concrete oracle for the C10 witness: the website-content adapter
returns the successful-fetch extraction of `c10Page`. -/
def c10Oracle : ApiHelpers.ResearchOracle where
  findWebsite := fun _ => ""
  brandFetch := fun _ => none
  scrape := fun _ => ApiHelpers.scrape_website_content_page c10Page
  ddgSummary := fun _ => ""
  news := fun _ _ => []
  inferIndustry := fun _ _ => "Unknown"

/-- Claim C10: a successfully fetched and parsed page never yields the empty
string — when nothing is extracted the fixed sentinel is returned — and
consequently the aggregator records "Website Content" whenever the
website-content adapter's output is a successful-fetch extraction. -/
theorem C10_sentinel_records_source :
    (∀ q : ApiHelpers.Page, ApiHelpers.scrape_website_content_page q ≠ "") ∧
    (∀ q : ApiHelpers.Page, ApiHelpers.pageParts q = [] →
      ApiHelpers.scrape_website_content_page q = ApiHelpers.contentSentinel) ∧
    (∀ (o : ApiHelpers.ResearchOracle) (company_name website : String)
        (p : ApiHelpers.Page),
      (ApiHelpers.research_company_thoroughly o company_name website).website ≠ "" →
      o.scrape (ApiHelpers.research_company_thoroughly o company_name website).website =
        ApiHelpers.scrape_website_content_page p →
      "Website Content" ∈
        (ApiHelpers.research_company_thoroughly o company_name website).sources_used) := by
  have hnz : ∀ q : ApiHelpers.Page, ApiHelpers.scrape_website_content_page q ≠ "" := by
    intro q
    have hpage : ApiHelpers.scrape_website_content_page q =
        if ApiHelpers.joinBar ((ApiHelpers.pageParts q).filter fun s => s ≠ "") ≠ "" then
          ApiHelpers.joinBar ((ApiHelpers.pageParts q).filter fun s => s ≠ "")
        else ApiHelpers.contentSentinel := rfl
    rw [hpage]
    by_cases hr : ApiHelpers.joinBar ((ApiHelpers.pageParts q).filter fun s => s ≠ "") = ""
    · rw [if_neg (by simpa using hr)]
      decide
    · rw [if_pos (by simpa using hr)]
      exact hr
  refine ⟨hnz, ?_, ?_⟩
  · intro q hq
    have hpage : ApiHelpers.scrape_website_content_page q =
        if ApiHelpers.joinBar ((ApiHelpers.pageParts q).filter fun s => s ≠ "") ≠ "" then
          ApiHelpers.joinBar ((ApiHelpers.pageParts q).filter fun s => s ≠ "")
        else ApiHelpers.contentSentinel := rfl
    rw [hpage, hq]
    rfl
  · intro o company_name website p hw hsc
    have er : ApiHelpers.research_company_thoroughly o company_name website =
        (ApiHelpers.stageIndustry o (ApiHelpers.stageNews o (ApiHelpers.stageSummary o
          (ApiHelpers.stageScrape o (ApiHelpers.stageBrand o (ApiHelpers.stageDomain
            (ApiHelpers.stageFindWebsite o
              (ApiHelpers.initState company_name website)))))))).res := rfl
    rw [er] at hw hsc ⊢
    set s1 := ApiHelpers.stageFindWebsite o (ApiHelpers.initState company_name website)
      with hs1
    set s2 := ApiHelpers.stageDomain s1 with hs2
    set s3 := ApiHelpers.stageBrand o s2 with hs3
    set s4 := ApiHelpers.stageScrape o s3 with hs4
    set s5 := ApiHelpers.stageSummary o s4 with hs5
    set s6 := ApiHelpers.stageNews o s5 with hs6
    set s7 := ApiHelpers.stageIndustry o s6 with hs7
    have hweb : s7.res.website = s3.res.website := by
      rw [hs7, (stageIndustry_fields o s6).2.1, hs6, (stageNews_fields o s5).2.1, hs5,
        (stageSummary_fields o s4).2.1, hs4, (stageScrape_fields o s3).2.1]
    have hw3 : s3.res.website ≠ "" := by rw [← hweb]; exact hw
    have hsc3 : o.scrape s3.res.website ≠ "" := by
      rw [← hweb, hsc]
      exact hnz p
    have hrec := stageScrape_records o s3 hw3 hsc3
    rcases stageSummary_sources o s4 with h5 | h5 | h5 <;>
    rcases stageNews_sources o s5 with h6 | h6 <;>
    rcases stageIndustry_sources o s6 with h7 | h7 <;>
    rw [hs7, h7, hs6, h6, hs5, h5, hs4, hrec] <;> simp

/-- Witness for C10 at concrete pages and a concrete oracle. -/
theorem C10_sentinel_records_source_witness :
    ApiHelpers.scrape_website_content_page c10Page ≠ "" ∧
    ApiHelpers.scrape_website_content_page c10Empty = ApiHelpers.contentSentinel ∧
    "Website Content" ∈ (ApiHelpers.research_company_thoroughly c10Oracle "Beta"
      "https://beta.example").sources_used :=
  ⟨C10_sentinel_records_source.1 c10Page,
   C10_sentinel_records_source.2.1 c10Empty (by decide),
   C10_sentinel_records_source.2.2 c10Oracle "Beta" "https://beta.example" c10Page
     (by decide) rfl⟩

/-- Witness for C7 at concrete inputs exercising each branch. -/
theorem C7_extract_domain_witness :
    ApiHelpers.extract_domain "https://www.example.com/path" =
      ((Urllib.urlparse "https://www.example.com/path").map Urllib.UrlParts.netloc).getD "" ∧
    ApiHelpers.extract_domain " acme.com " = Py.strip " acme.com " ∧
    ApiHelpers.extract_domain "hello" = "" :=
  ⟨(C7_extract_domain "https://www.example.com/path").1 (by decide),
   (C7_extract_domain " acme.com ").2.1 (by decide) (by decide) (by decide),
   (C7_extract_domain "hello").2.2.1 (by decide) (Or.inl (by decide))⟩
